import Mathlib

/-!
Shallow embedding of `sdk/typescript/src/builder/Transaction.ts` (the Sui
transaction builder) together with the event-summary helper appended to the
same source file.  Pure functions of the source become Lean functions; the
mutation of `input.value` performed by the resolution pipeline is modelled as
explicit state passing over lists of inputs.  Helpers that live in modules not
present under `src/` (`Inputs.ts`, `serializer.ts`, `types`) are modelled from
the spec and carry a doc comment saying so.
-/

set_option autoImplicit false

namespace SuiBuilder

/-- An object reference `SuiObjectRef {objectId, version, digest}`. -/
structure SuiObjectRef where
  objectId : String
  version : Nat
  digest : String
  deriving DecidableEq, Repr

/-- Modelled from the spec: the `ObjectArg` union of `Inputs.ts` (not under
`src/`): an owned/immutable reference (`ImmOrOwned`) or a shared object
reference carrying `initialSharedVersion` and a `mutable` flag. -/
inductive ObjectArg where
  | immOrOwned (ref : SuiObjectRef)
  | shared (objectId : String) (initialSharedVersion : Nat) (mutable : Bool)
  deriving DecidableEq, Repr

/-- Modelled from the spec: `BuilderCallArg` of `Inputs.ts` (not under `src/`),
the union of a fully-encoded `Pure` call argument (`{Pure: bytes}`) and an
`Object` call argument. -/
inductive CallArg where
  | pureArg (bytes : List Nat)
  | objectArg (arg : ObjectArg)
  deriving DecidableEq, Repr

/-- The dynamic value stored in `input.value`: either a raw program-supplied
value (an object-id string, a number, `undefined`, …) or an already-resolved
`BuilderCallArg`. -/
inductive Value where
  | undef
  | str (s : String)
  | num (n : Int)
  | arg (a : CallArg)
  deriving DecidableEq, Repr, Inhabited

/-- The `type` discriminant of a `TransactionInput`: `'object' | 'pure'`. -/
inductive InputType where
  | object
  | pureType
  deriving DecidableEq, Repr, Inhabited

/-- A `TransactionInput` `{kind: 'Input', value, index, type}`; the constant
`kind` tag is left implicit. -/
structure TransactionInput where
  index : Nat
  type : InputType
  value : Value
  deriving DecidableEq, Repr, Inhabited

/-- Modelled from the spec: superstruct `is(v, BuilderCallArg)` applied to an
input's `value` (`Inputs.ts` not under `src/`): true exactly when the value is
a fully-encoded call argument (`{Pure: …}` or `{Object: …}`). -/
def isBuilderCallArg : Value → Bool
  | .arg _ => true
  | _ => false

/-- Modelled from the spec: `getIdFromCallArg` of `Inputs.ts` (not under
`src/`): the logical object id of an object-input value — the string itself
for a raw object-id string, the `objectId` field of either object call-arg
variant, and undefined (`none`) for anything else.  Id normalization is
omitted: ids are treated as already normalized. -/
def getIdFromCallArg : Value → Option String
  | .str s => some s
  | .arg (.objectArg (.immOrOwned ref)) => some ref.objectId
  | .arg (.objectArg (.shared objectId _ _)) => some objectId
  | _ => none

/-- Modelled from the spec: `isMutableSharedObjectInput` of `Inputs.ts` (not
under `src/`): whether the value already holds a shared-object call argument
whose `mutable` flag is set ("the same input was already marked mutable by an
earlier-processed command"). -/
def isMutableSharedObjectInput : Value → Bool
  | .arg (.objectArg (.shared _ _ m)) => m
  | _ => false

/-! ## Input registry (`Transaction.#input`, `Transaction.object`,
`Transaction.pure`, lines 195–226) -/

/-- `Transaction.#input(type, value)`: appends a new input whose `index` is the
current registry length, and returns it. -/
def Transaction.inputOp (inputs : List TransactionInput) (type : InputType)
    (value : Value) : TransactionInput × List TransactionInput :=
  let input : TransactionInput := { index := inputs.length, type := type, value := value }
  (input, inputs ++ [input])

/-- `Transaction.object(value)`: deduplicates by logical object id — returns
the first existing object-kind input with the same id, else appends a new
object-kind input. -/
def Transaction.objectOp (inputs : List TransactionInput) (value : Value) :
    TransactionInput × List TransactionInput :=
  let id := getIdFromCallArg value
  match inputs.find? (fun i => i.type == InputType.object && id == getIdFromCallArg i.value) with
  | some inserted => (inserted, inputs)
  | none => Transaction.inputOp inputs InputType.object value

/-- `Transaction.pure(value)`: always appends a new pure-kind input, with no
deduplication. -/
def Transaction.pureOp (inputs : List TransactionInput) (value : Value) :
    TransactionInput × List TransactionInput :=
  Transaction.inputOp inputs InputType.pureType value

/-! ## Normalized Move types and the serializer helpers -/

/-- `SuiMoveNormalizedType`: the normalized parameter types returned by
`getNormalizedMoveFunction` — primitive type-name strings, and the tagged
objects `Vector`, `Struct`, `TypeParameter`, `Reference`, `MutableReference`. -/
inductive SuiMoveNormalizedType where
  | bool
  | u8
  | u16
  | u32
  | u64
  | u128
  | u256
  | address
  | signer
  | vector (t : SuiMoveNormalizedType)
  | struct (addr module name : String)
  | typeParameter (n : Nat)
  | reference (t : SuiMoveNormalizedType)
  | mutableReference (t : SuiMoveNormalizedType)
  deriving DecidableEq, Repr

/-- Modelled from the spec: `extractStructTag` of `../types` (not under
`src/`): the struct tag of a normalized type, looking through one level of
(mutable) reference. -/
def extractStructTag : SuiMoveNormalizedType → Option (String × String × String)
  | .struct a m n => some (a, m, n)
  | .reference t => extractStructTag t
  | .mutableReference t => extractStructTag t
  | _ => none

/-- Modelled from the spec: `extractMutableReference` of `../types` (not under
`src/`): the referent when the normalized type denotes a mutable reference. -/
def extractMutableReference : SuiMoveNormalizedType → Option SuiMoveNormalizedType
  | .mutableReference t => some t
  | _ => none

/-- Modelled from the spec: `isTxContext` of `serializer.ts` (not under
`src/`): whether the parameter is the implicit trailing transaction-context
parameter, a mutable reference to the `0x2::tx_context::TxContext` struct. -/
def isTxContext (param : SuiMoveNormalizedType) : Bool :=
  match extractStructTag param with
  | some (a, m, n) => a == "0x2" && m == "tx_context" && n == "TxContext"
  | none => false

/-- `typeof param === 'object' && 'TypeParameter' in param` (line 426). -/
def isTypeParameterKind : SuiMoveNormalizedType → Bool
  | .typeParameter _ => true
  | _ => false

/-- Modelled from the spec: `getPureSerializationType` of `serializer.ts` (not
under `src/`): pure-type inference from the parameter's declared type — a wire
type tag for the pure-serializable kinds (primitives and vectors of them),
undefined (`none`) for struct/type-parameter/reference kinds. -/
def getPureSerializationType : SuiMoveNormalizedType → Value → Option String
  | .bool, _ => some "bool"
  | .u8, _ => some "u8"
  | .u16, _ => some "u16"
  | .u32, _ => some "u32"
  | .u64, _ => some "u64"
  | .u128, _ => some "u128"
  | .u256, _ => some "u256"
  | .address, _ => some "address"
  | .signer, _ => some "address"
  | .vector t, v => (getPureSerializationType t v).map (fun s => "vector<" ++ s ++ ">")
  | .struct _ _ _, _ => none
  | .typeParameter _, _ => none
  | .reference _, _ => none
  | .mutableReference _, _ => none

/-- Modelled from the spec: the BCS pure serialization performed by
`Inputs.Pure` (`Inputs.ts` and the BCS library are not under `src/`).  The
claims never constrain the concrete bytes, only that a `Pure` call argument is
produced; the encoding here just tags the wire type and the value's shape. -/
def bcsBytes (wireType : String) (value : Value) : List Nat :=
  let valueTag : Nat :=
    match value with
    | .undef => 0
    | .str _ => 1
    | .num _ => 2
    | .arg _ => 3
  valueTag :: wireType.data.map Char.toNat

/-- Modelled from the spec: `Inputs.Pure(type, value)` — a fully-encoded
`Pure` call argument holding the BCS bytes of the value at the wire type. -/
def Inputs.PureArg (wireType : String) (value : Value) : CallArg :=
  .pureArg (bcsBytes wireType value)

/-- Modelled from the spec: `Inputs.SharedObjectRef {objectId,
initialSharedVersion, mutable}`. -/
def Inputs.SharedObjectRefArg (objectId : String) (initialSharedVersion : Nat)
    (mutable : Bool) : CallArg :=
  .objectArg (.shared objectId initialSharedVersion mutable)

/-- Modelled from the spec: `Inputs.ObjectRef(ref)` — an owned/immutable
object call argument. -/
def Inputs.ObjectRefArg (ref : SuiObjectRef) : CallArg :=
  .objectArg (.immOrOwned ref)

/-! ## Command arguments and result handles
(`createTransactionResult`, lines 42–86; `Transaction.add`, lines 234–238) -/

/-- `CommandArgument`: `GasCoin | Input{index} | Result{index} |
NestedResult{index, resultIndex}`. -/
inductive CommandArgument where
  | gasCoin
  | input (index : Nat)
  | result (index : Nat)
  | nestedResult (index : Nat) (resultIndex : Nat)
  deriving DecidableEq, Repr, Inhabited

/-- JavaScript `parseInt(s, 10)`: skip leading whitespace, read an optional
sign and then the longest prefix of decimal digits; `NaN` (here `none`) when
no digit is read, ignoring any trailing non-digit characters. -/
def jsParseInt (s : String) : Option Int :=
  let chars := s.data.dropWhile (fun c => c == ' ' || c == '\t' || c == '\n' || c == '\r')
  let signAndRest : Int × List Char :=
    match chars with
    | '-' :: cs => (-1, cs)
    | '+' :: cs => (1, cs)
    | cs => (1, cs)
  let digits := signAndRest.2.takeWhile Char.isDigit
  if digits.isEmpty then none
  else some (signAndRest.1 * (digits.foldl (fun n c => n * 10 + (c.toNat - '0'.toNat)) 0 : Nat))

/-- The lazily populated `nestedResults` cache of `createTransactionResult`,
as an association list from `resultIndex` to the cached handle. -/
def nestedResultFor (index : Nat) (cache : List (Nat × CommandArgument))
    (resultIndex : Nat) : CommandArgument × List (Nat × CommandArgument) :=
  match cache.lookup resultIndex with
  | some cached => (cached, cache)
  | none =>
    let fresh := CommandArgument.nestedResult index resultIndex
    (fresh, (resultIndex, fresh) :: cache)

/-- A property key used to access the result proxy: a string key, the
well-known iterator symbol, or any other symbol. -/
inductive PropertyKey where
  | strKey (s : String)
  | symIterator
  | symOtherKey (s : String)
  deriving DecidableEq, Repr

/-- The observable outcome of a `get` on the result proxy: one of the base
result's own fields (`kind`/`index`), a member inherited from
`Object.prototype`, the iterator generator, `undefined`, or a nested-result
handle. -/
inductive ProxyGetResult where
  | kindField (s : String)
  | indexField (n : Nat)
  | inherited (name : String)
  | iteratorFn
  | undef
  | nested (arg : CommandArgument)
  deriving DecidableEq, Repr

/-- The string property keys of `Object.prototype`: the base result is a plain
object literal, so `property in target` (line 64) is also true for these
inherited keys, and `Reflect.get` then returns the inherited member. -/
def objectPrototypeKeys : List String :=
  ["constructor", "hasOwnProperty", "isPrototypeOf", "propertyIsEnumerable",
    "toLocaleString", "toString", "valueOf", "__proto__",
    "__defineGetter__", "__defineSetter__", "__lookupGetter__",
    "__lookupSetter__"]

/-- The tail of the `get` trap (lines 81–83): a parsed index below zero yields
`undefined`, otherwise the cached nested-result handle. -/
def nestedAccess (index : Nat) (cache : List (Nat × CommandArgument)) (i : Int) :
    ProxyGetResult × List (Nat × CommandArgument) :=
  if i < 0 then (.undef, cache)
  else
    let r := nestedResultFor index cache i.toNat
    (.nested r.1, r.2)

/-- The `get` trap of the proxy returned by `createTransactionResult(index)`:
`property in target` is served first — the base result's own `kind`/`index`
fields, and the keys the plain object inherits from `Object.prototype` — then
the iterator symbol, then any other symbol yields `undefined`, and finally the
key is parsed as an integer — negative or unparsable keys yield `undefined`,
others the cached nested-result handle. -/
def createTransactionResultGet (index : Nat) (cache : List (Nat × CommandArgument)) :
    PropertyKey → ProxyGetResult × List (Nat × CommandArgument)
  | .strKey s =>
    if s == "kind" then (.kindField "Result", cache)
    else if s == "index" then (.indexField index, cache)
    else if objectPrototypeKeys.contains s then (.inherited s, cache)
    else
      match jsParseInt s with
      | none => (.undef, cache)
      | some i => nestedAccess index cache i
  | .symIterator => (.iteratorFn, cache)
  | .symOtherKey _ => (.undef, cache)

/-- The `set` trap of the result proxy: every property write throws. -/
def createTransactionResultSet (_property : PropertyKey) (_v : Value) :
    Except String Unit :=
  .error "The transaction result is a proxy, and does not support setting properties directly"

/-- `Transaction.add(command)`: appends the command and returns the handle
index of the freshly created transaction result (`push` returns the new
length, and the handle wraps `length - 1`). -/
def Transaction.addOp {α : Type} (commands : List α) (command : α) : Nat × List α :=
  let newLength := (commands ++ [command]).length
  (newLength - 1, commands ++ [command])

/-! ## Resolution pipeline (`Transaction.#prepare`, lines 282–541) -/

/-- `gasConfig {price, budget, payment}`; unset (undefined or empty-string)
fields are `none`. -/
structure GasConfig where
  price : Option String
  budget : Option String
  payment : Option (List SuiObjectRef)
  deriving DecidableEq, Repr

/-- The transaction-data fields read by the precondition step. -/
structure TransactionDataState where
  sender : Option String
  gasConfig : GasConfig
  deriving DecidableEq, Repr

/-- A remote query-service call recorded by the model. -/
inductive RemoteCall where
  | referenceGasPrice
  deriving DecidableEq, Repr

/-- Lines 283–295: fail fast on a missing sender, then on a missing gas
budget, before any remote call; fetch and store the reference gas price
exactly when `gasConfig.price` is unset.  The second component records the
remote calls made. -/
def prepareGasPrice (referenceGasPrice : Nat) (data : TransactionDataState) :
    Except String TransactionDataState × List RemoteCall :=
  match data.sender with
  | none => (.error "Missing transaction sender", [])
  | some _ =>
    match data.gasConfig.budget with
    | none => (.error "Missing gas budget", [])
    | some _ =>
      match data.gasConfig.price with
      | none =>
        (.ok { data with
                gasConfig := { data.gasConfig with
                                price := some (toString referenceGasPrice) } },
         [.referenceGasPrice])
      | some _ => (.ok data, [])

/-- The well-known encoding a command field declares for its arguments:
`{kind: 'object'}` or `{kind: 'pure', type}` (`utils.ts`, not under `src/`;
the shape is read off lines 337–364). -/
inductive WellKnownEncoding where
  | objectKind
  | pureKind (type : String)
  deriving DecidableEq, Repr

/-- What the classification pass does to one input (besides throwing):
leaves it alone, queues it for object resolution, or resolves it in place. -/
inductive EncodeInputOutcome where
  | skip
  | queueObject (id : String)
  | setValue (newValue : Value)
  deriving DecidableEq, Repr

/-- `encodeInput` (lines 344–364): a missing input is an error; an input whose
value is already a `BuilderCallArg` is skipped; an object-encoded string value
is queued for object resolution; a pure-encoded value is encoded in place;
anything else throws. -/
def encodeInput (inputs : List TransactionInput)
    (wellKnownEncoding : WellKnownEncoding) (index : Nat) :
    Except String EncodeInputOutcome :=
  match inputs[index]? with
  | none => .error "Missing input"
  | some input =>
    if isBuilderCallArg input.value then .ok .skip
    else
      match wellKnownEncoding, input.value with
      | .objectKind, .str s => .ok (.queueObject s)
      | .pureKind t, v => .ok (.setValue (.arg (Inputs.PureArg t v)))
      | .objectKind, _ => .error "Unexpected input format."

/-- Lines 315–319: a move call needs signature resolution when some argument
is an `Input` whose value is not yet a `BuilderCallArg`. -/
def needsResolution (inputs : List TransactionInput)
    (arguments : List CommandArgument) : Bool :=
  arguments.any (fun arg =>
    match arg with
    | .input i => !isBuilderCallArg ((inputs.getD i default).value)
    | _ => false)

/-- The signature fetched by `getNormalizedMoveFunction`. -/
structure NormalizedFunction where
  parameters : List SuiMoveNormalizedType
  deriving DecidableEq, Repr

/-- Lines 395–405: drop a trailing transaction-context parameter if present,
then fail with `Incorrect number of arguments.` when the caller-supplied
argument count differs from the adjusted parameter count. -/
def resolveSignature (normalized : NormalizedFunction)
    (arguments : List CommandArgument) : Except String (List SuiMoveNormalizedType) :=
  let hasTxContext :=
    decide (0 < normalized.parameters.length) &&
      isTxContext (normalized.parameters.getLastD .bool)
  let params :=
    if hasTxContext then normalized.parameters.dropLast else normalized.parameters
  if params.length != arguments.length then .error "Incorrect number of arguments."
  else .ok params

/-- The check `is(input, BuilderCallArg)` at line 412 applies the call-arg
schema to the input wrapper itself — an object with fields
kind/value/index/type — rather than to `input.value`; the exact schemas of
`BuilderCallArg` admit only a single `Pure` or `Object` field, so the wrapper
never matches and the check is constantly false. -/
def inputMatchesBuilderCallArg (_input : TransactionInput) : Bool := false

/-- What the signature-resolution pass does to one parameter/input pair
(besides throwing). -/
inductive ParamOutcome where
  | skip
  | setValue (newValue : Value)
  | queueObject (id : String) (normalizedType : SuiMoveNormalizedType)
  deriving DecidableEq, Repr

/-- Lines 407–452, the per-parameter body of the signature-resolution pass:
skip when the (buggy) resolved-input check fires; resolve in place when pure
inference succeeds; queue struct/type-parameter-typed string values for object
resolution; otherwise throw. -/
def resolveMoveCallParam (param : SuiMoveNormalizedType)
    (input : TransactionInput) : Except String ParamOutcome :=
  if inputMatchesBuilderCallArg input then .ok .skip
  else
    let inputValue := input.value
    match getPureSerializationType param inputValue with
    | some serType => .ok (.setValue (.arg (Inputs.PureArg serType inputValue)))
    | none =>
      if (extractStructTag param).isSome || isTypeParameterKind param then
        match inputValue with
        | .str s => .ok (.queueObject s param)
        | _ => .error "Expect the argument to be an object id string"
      else .error "Unknown call arg type"

/-! ## Object reference resolution (lines 457–502) -/

/-- An entry of `objectsToResolve`; the source keeps the input by reference,
modelled here by the input's position in the registry. -/
structure ObjectToResolve where
  id : String
  inputIndex : Nat
  normalizedType : Option SuiMoveNormalizedType
  deriving DecidableEq, Repr

/-- `[...new Set(ids)]`: deduplication preserving first-occurrence order. -/
def dedupeIds (ids : List String) : List String :=
  ids.foldl (fun acc i => if i ∈ acc then acc else acc ++ [i]) []

/-- The status of a batch-fetched object. -/
inductive ObjectStatus where
  | objExists
  | notFound
  deriving DecidableEq, Repr

/-- The per-object response of `getObjectBatch`, already projected through the
modelled-from-the-spec accessors `getSharedObjectInitialVersion` (`some` for a
shared object) and `getObjectReference` (the current versioned reference). -/
structure SuiObjectResponse where
  status : ObjectStatus
  initialSharedVersion : Option Nat
  reference : SuiObjectRef
  deriving DecidableEq, Repr

/-- Lines 458–471: deduplicate the queued ids, pair each with its fetched
object, and collect the ids whose status is not `Exists`. -/
def invalidObjects (fetch : String → SuiObjectResponse)
    (queue : List ObjectToResolve) : List String :=
  let dedupedIds := dedupeIds (queue.map (·.id))
  let objectsById := dedupedIds.map (fun i => (i, fetch i))
  (objectsById.filter (fun p => p.2.status != ObjectStatus.objExists)).map (·.1)

/-- Lines 472–478: fail after the batch call when any queued id resolved to a
non-existent object, listing all of them in one message. -/
def checkObjectsExist (fetch : String → SuiObjectResponse)
    (queue : List ObjectToResolve) : Except String Unit :=
  let invalid := invalidObjects fetch queue
  if invalid.isEmpty then .ok ()
  else .error ("The following input objects are not invalid: " ++
    String.intercalate ", " invalid)

/-- Line 457 and 459: the whole resolution block is guarded by
`objectsToResolve.length`, and issues one `getObjectBatch` call for the whole
queue — so the number of batch calls is 0 for an empty queue and 1 otherwise. -/
def objectBatchCalls (queue : List ObjectToResolve) : Nat :=
  if queue.isEmpty then 0 else 1

/-- Lines 480–501, the body of the resolution loop for one queue entry: a
shared object (truthy initial shared version) resolves to a
`SharedObjectRef` whose `mutable` flag ORs the flag already stored on the
input with the mutability of the attached normalized parameter type; an owned
object resolves to an `ObjectRef` of its current reference. -/
def resolveObjectEntry (fetch : String → SuiObjectResponse)
    (entry : ObjectToResolve) (value : Value) : Value :=
  let object := fetch entry.id
  let initialSharedVersion := object.initialSharedVersion.getD 0
  if initialSharedVersion != 0 then
    let mutable :=
      isMutableSharedObjectInput value ||
        (match entry.normalizedType with
         | some t => (extractMutableReference t).isSome
         | none => false)
    .arg (Inputs.SharedObjectRefArg entry.id initialSharedVersion mutable)
  else
    .arg (Inputs.ObjectRefArg object.reference)

/-- The `objectsToResolve.forEach` loop, as a fold over the queue updating the
registry's values in place. -/
def resolveObjects (fetch : String → SuiObjectResponse)
    (queue : List ObjectToResolve) (values : List Value) : List Value :=
  queue.foldl
    (fun vals entry =>
      vals.set entry.inputIndex
        (resolveObjectEntry fetch entry (vals.getD entry.inputIndex .undef)))
    values

/-! ## Gas payment selection (lines 504–540) -/

/-- A coin returned by `getCoins`. -/
structure CoinStruct where
  coinObjectId : String
  version : Nat
  digest : String
  deriving DecidableEq, Repr

/-- Whether some input's value is an owned-object call argument for this coin
(the `find` predicate of lines 515–527). -/
def coinUsedAsInput (inputs : List TransactionInput) (coin : CoinStruct) : Bool :=
  inputs.any (fun input =>
    match input.value with
    | .arg (.objectArg (.immOrOwned ref)) => coin.coinObjectId == ref.objectId
    | _ => false)

/-- Lines 512–535: the candidate payment set — the fetched coins minus every
coin already used as an owned-object input, mapped to object references. -/
def gasSelected (coins : List CoinStruct) (inputs : List TransactionInput) :
    List SuiObjectRef :=
  (coins.filter (fun coin => !coinUsedAsInput inputs coin)).map
    (fun coin =>
      ({ objectId := coin.coinObjectId, version := coin.version,
         digest := coin.digest } : SuiObjectRef))

/-- Lines 504–540: when `gasConfig.payment` is set, keep it and make no coin
query; otherwise fetch the sender's native-gas coins (the second component
counts `getCoins` calls), drop every coin already used as an owned-object
input, and fail when nothing remains. -/
def selectGasPayment (payment : Option (List SuiObjectRef))
    (coins : List CoinStruct) (inputs : List TransactionInput) :
    Except String (List SuiObjectRef) × Nat :=
  match payment with
  | some p => (.ok p, 0)
  | none =>
    let selected := gasSelected coins inputs
    if selected.isEmpty then
      (.error "No valid gas coins found for the transaction.", 1)
    else (.ok selected, 1)

/-! ## Auxiliary lemmas -/

theorem lookup_mem {α β : Type} [BEq α] [LawfulBEq α] :
    ∀ (l : List (α × β)) (k : α) (v : β), l.lookup k = some v → (k, v) ∈ l := by
  intro l k v h
  induction l with
  | nil => simp [List.lookup] at h
  | cons hd tl ih =>
    rw [List.lookup] at h
    by_cases hk : k == hd.1
    · simp [hk] at h
      have : k = hd.1 := eq_of_beq hk
      subst this
      subst h
      exact List.mem_cons_self _ _
    · simp [hk] at h
      exact List.mem_cons_of_mem _ (ih h)

theorem dedupeIds_loop_mem (l acc : List String) (x : String) :
    x ∈ l.foldl (fun acc i => if i ∈ acc then acc else acc ++ [i]) acc ↔
      x ∈ acc ∨ x ∈ l := by
  induction l generalizing acc with
  | nil => simp
  | cons hd tl ih =>
    rw [List.foldl_cons, ih]
    by_cases h : hd ∈ acc
    · simp only [if_pos h, List.mem_cons]
      constructor
      · rintro (hx | hx)
        · exact Or.inl hx
        · exact Or.inr (Or.inr hx)
      · rintro (hx | hx | hx)
        · exact Or.inl hx
        · exact Or.inl (hx ▸ h)
        · exact Or.inr hx
    · simp only [if_neg h, List.mem_append, List.mem_singleton, List.mem_cons]
      tauto

theorem dedupeIds_loop_nodup (l acc : List String) (hacc : acc.Nodup) :
    (l.foldl (fun acc i => if i ∈ acc then acc else acc ++ [i]) acc).Nodup := by
  induction l generalizing acc with
  | nil => exact hacc
  | cons hd tl ih =>
    rw [List.foldl_cons]
    by_cases h : hd ∈ acc
    · rw [if_pos h]; exact ih acc hacc
    · rw [if_neg h]
      refine ih _ ?_
      simpa [List.nodup_append] using ⟨hacc, h⟩

theorem dedupeIds_mem (l : List String) (x : String) : x ∈ dedupeIds l ↔ x ∈ l := by
  rw [dedupeIds, dedupeIds_loop_mem]
  simp

theorem dedupeIds_nodup (l : List String) : (dedupeIds l).Nodup :=
  dedupeIds_loop_nodup l [] List.nodup_nil

theorem filter_fst_of_map_pair {α β : Type} (f : α → β) (p : α × β → Bool) :
    ∀ l : List α,
      ((l.map (fun i => (i, f i))).filter p).map (·.1) =
        l.filter (fun i => p (i, f i)) := by
  intro l
  induction l with
  | nil => rfl
  | cons hd tl ih =>
    simp only [List.map_cons, List.filter_cons]
    by_cases h : p (hd, f hd)
    · simp [h, ih]
    · simp [h, ih]

theorem any_of_perm {α : Type} (f : α → Bool) {l₁ l₂ : List α} (h : l₁.Perm l₂) :
    l₁.any f = l₂.any f := by
  rcases hb : l₂.any f with _ | _
  · rw [Bool.eq_false_iff]
    intro hc
    rw [List.any_eq_true] at hc
    obtain ⟨x, hx, hfx⟩ := hc
    rw [Bool.eq_false_iff] at hb
    exact hb (List.any_eq_true.mpr ⟨x, h.mem_iff.mp hx, hfx⟩)
  · rw [List.any_eq_true] at hb ⊢
    obtain ⟨x, hx, hfx⟩ := hb
    exact ⟨x, h.mem_iff.mpr hx, hfx⟩

theorem objectOp_fst_spec (inputs : List TransactionInput) (v : Value) :
    (Transaction.objectOp inputs v).1.type = InputType.object ∧
      getIdFromCallArg (Transaction.objectOp inputs v).1.value = getIdFromCallArg v := by
  rcases hfind : inputs.find?
      (fun i => i.type == InputType.object && getIdFromCallArg v == getIdFromCallArg i.value)
    with _ | found
  · simp [Transaction.objectOp, hfind, Transaction.inputOp]
  · have hp := List.find?_some hfind
    rw [Bool.and_eq_true, beq_iff_eq, beq_iff_eq] at hp
    simp only [Transaction.objectOp, hfind]
    exact ⟨hp.1, hp.2.symm⟩

/-! ## Claims -/

/-- C6: declaring an object input whose logical id is already registered by an
object-kind input returns an existing input without appending; with no such
input, a fresh object input is appended at index = current length; two
distinct object ids yield two distinct inputs; a pure declaration always
appends a fresh input at index = current length. -/
theorem C6_input_registry_dedup
    (inputs : List TransactionInput) (v₁ v₂ : Value) (id₁ id₂ : String)
    (x : TransactionInput) :
    (x ∈ inputs → x.type = InputType.object →
      getIdFromCallArg v₁ = getIdFromCallArg x.value →
      (Transaction.objectOp inputs v₁).2 = inputs ∧
        (Transaction.objectOp inputs v₁).1 ∈ inputs) ∧
    ((∀ y ∈ inputs, ¬(y.type = InputType.object ∧
        getIdFromCallArg v₁ = getIdFromCallArg y.value)) →
      Transaction.objectOp inputs v₁ =
        ({ index := inputs.length, type := InputType.object, value := v₁ },
          inputs ++ [{ index := inputs.length, type := InputType.object, value := v₁ }])) ∧
    (getIdFromCallArg v₁ = some id₁ → getIdFromCallArg v₂ = some id₂ → id₁ ≠ id₂ →
      (Transaction.objectOp (Transaction.objectOp inputs v₁).2 v₂).1 ≠
        (Transaction.objectOp inputs v₁).1) ∧
    Transaction.pureOp inputs v₁ =
      ({ index := inputs.length, type := InputType.pureType, value := v₁ },
        inputs ++ [{ index := inputs.length, type := InputType.pureType, value := v₁ }]) := by
  refine ⟨?_, ?_, ?_, rfl⟩
  · intro hmem htype hid
    rcases hfind : inputs.find?
        (fun i => i.type == InputType.object && getIdFromCallArg v₁ == getIdFromCallArg i.value)
      with _ | found
    · exfalso
      have := List.find?_eq_none.mp hfind x hmem
      rw [Bool.and_eq_true, beq_iff_eq, beq_iff_eq] at this
      exact this ⟨htype, hid⟩
    · constructor
      · simp [Transaction.objectOp, hfind]
      · simp only [Transaction.objectOp, hfind]
        exact List.mem_of_find?_eq_some hfind
  · intro h
    have hfind : inputs.find?
        (fun i => i.type == InputType.object && getIdFromCallArg v₁ == getIdFromCallArg i.value) =
          none := by
      rw [List.find?_eq_none]
      intro y hy
      have := h y hy
      rw [Bool.and_eq_true, beq_iff_eq, beq_iff_eq]
      tauto
    simp [Transaction.objectOp, hfind, Transaction.inputOp]
  · intro h₁ h₂ hne heq
    have s₁ := (objectOp_fst_spec inputs v₁).2
    have s₂ := (objectOp_fst_spec (Transaction.objectOp inputs v₁).2 v₂).2
    rw [heq, s₁, h₁] at s₂
    rw [h₂] at s₂
    exact hne (Option.some_inj.mp s₂)

/-- C6 witness: declaring the object id `0xa` twice returns the same input
with no append; declaring `0xa` then `0xb` yields two distinct inputs; a pure
declaration appends at the current length. -/
theorem C6_witness :
    ((Transaction.objectOp [⟨0, InputType.object, Value.str "0xa"⟩] (Value.str "0xa")).2 =
        [⟨0, InputType.object, Value.str "0xa"⟩] ∧
      (Transaction.objectOp [⟨0, InputType.object, Value.str "0xa"⟩] (Value.str "0xa")).1 ∈
        [⟨0, InputType.object, Value.str "0xa"⟩]) ∧
    (Transaction.objectOp (Transaction.objectOp [] (Value.str "0xa")).2 (Value.str "0xb")).1 ≠
      (Transaction.objectOp [] (Value.str "0xa")).1 ∧
    Transaction.pureOp [] (Value.num 7) =
      ({ index := 0, type := InputType.pureType, value := Value.num 7 },
        [{ index := 0, type := InputType.pureType, value := Value.num 7 }]) :=
  ⟨(C6_input_registry_dedup [⟨0, InputType.object, Value.str "0xa"⟩] (Value.str "0xa")
      (Value.str "0xb") "0xa" "0xb" ⟨0, InputType.object, Value.str "0xa"⟩).1
      (by decide) rfl rfl,
    (C6_input_registry_dedup [] (Value.str "0xa") (Value.str "0xb") "0xa" "0xb"
      default).2.2.1 rfl rfl (by decide),
    (C6_input_registry_dedup [] (Value.num 7) (Value.num 7) "0xa" "0xb" default).2.2.2⟩

/-- C7: resolution fails immediately, with no remote call, when the sender is
unset, and when the sender is set but the gas budget is unset; the
reference-gas-price call is made exactly when `gasConfig.price` is unset, and
the fetched price is stored in the returned state. -/
theorem C7_precondition_checks (rgp : Nat) (data : TransactionDataState) :
    (data.sender = none →
      prepareGasPrice rgp data = (.error "Missing transaction sender", [])) ∧
    (data.sender ≠ none → data.gasConfig.budget = none →
      prepareGasPrice rgp data = (.error "Missing gas budget", [])) ∧
    (data.sender ≠ none → data.gasConfig.budget ≠ none →
      data.gasConfig.price = none →
      prepareGasPrice rgp data =
        (.ok { data with
                gasConfig := { data.gasConfig with price := some (toString rgp) } },
          [.referenceGasPrice])) ∧
    (data.sender ≠ none → data.gasConfig.budget ≠ none →
      data.gasConfig.price ≠ none →
      prepareGasPrice rgp data = (.ok data, [])) := by
  obtain ⟨sender, price, budget, payment⟩ := data
  cases sender <;> cases budget <;> cases price <;>
    simp [prepareGasPrice]

/-- C7 witness: the four branches at concrete transaction data. -/
theorem C7_witness :
    prepareGasPrice 5 ⟨none, none, none, none⟩ =
      (.error "Missing transaction sender", []) ∧
    prepareGasPrice 5 ⟨some "0xsender", none, none, none⟩ =
      (.error "Missing gas budget", []) ∧
    prepareGasPrice 5 ⟨some "0xsender", none, some "100", none⟩ =
      (.ok ⟨some "0xsender", some (toString 5), some "100", none⟩, [.referenceGasPrice]) ∧
    prepareGasPrice 5 ⟨some "0xsender", some "2", some "100", none⟩ =
      (.ok ⟨some "0xsender", some "2", some "100", none⟩, []) :=
  ⟨(C7_precondition_checks 5 ⟨none, none, none, none⟩).1 rfl,
    (C7_precondition_checks 5 ⟨some "0xsender", none, none, none⟩).2.1
      (by decide) rfl,
    (C7_precondition_checks 5 ⟨some "0xsender", none, some "100", none⟩).2.2.1
      (by decide) (by decide) rfl,
    (C7_precondition_checks 5 ⟨some "0xsender", some "2", some "100", none⟩).2.2.2
      (by decide) (by decide) (by decide)⟩

/-- The expected parameter list in the claim's words: the fetched normalized
parameter list with a trailing transaction-context parameter removed when
present. -/
def specAdjustedParams (parameters : List SuiMoveNormalizedType) :
    List SuiMoveNormalizedType :=
  match parameters.getLast? with
  | some last => if isTxContext last then parameters.dropLast else parameters
  | none => parameters

theorem adjustedParams_eq (parameters : List SuiMoveNormalizedType) :
    (if (decide (0 < parameters.length) &&
          isTxContext (parameters.getLastD SuiMoveNormalizedType.bool)) = true
      then parameters.dropLast else parameters) = specAdjustedParams parameters := by
  rcases List.eq_nil_or_concat parameters with h | ⟨L, b, h⟩ <;> subst h
  · simp [specAdjustedParams]
  · rw [List.concat_eq_append]
    have h1 : specAdjustedParams (L ++ [b]) =
        if isTxContext b then (L ++ [b]).dropLast else (L ++ [b]) := by
      rw [specAdjustedParams, List.getLast?_concat]
    rw [h1, List.getLastD_concat, List.dropLast_concat]
    have hlen : decide (0 < (L ++ [b]).length) = true := by simp
    rw [hlen, Bool.true_and]

/-- C3: signature resolution computes the expected parameter list by dropping
a trailing transaction-context parameter when present, and fails with the
format error `Incorrect number of arguments.` exactly when the supplied
argument count differs from the adjusted parameter count. -/
theorem C3_signature_arity_check (normalized : NormalizedFunction)
    (arguments : List CommandArgument) :
    resolveSignature normalized arguments =
      if (specAdjustedParams normalized.parameters).length = arguments.length
      then .ok (specAdjustedParams normalized.parameters)
      else .error "Incorrect number of arguments." := by
  simp only [resolveSignature]
  rw [adjustedParams_eq]
  by_cases harg : (specAdjustedParams normalized.parameters).length = arguments.length
  · simp [harg]
  · simp [harg, bne_iff_ne]

/-- C5: the ids queued for object resolution are deduplicated; an id is
reported invalid exactly when it was queued and its fetched status is not
`Exists` — so the error lists every missing id, each exactly once — the
existence check succeeds exactly when every queued id exists, and at most one
batch fetch is issued. -/
theorem C5_missing_objects_reported_once (fetch : String → SuiObjectResponse)
    (queue : List ObjectToResolve) :
    (invalidObjects fetch queue).Nodup ∧
    (∀ i : String, i ∈ invalidObjects fetch queue ↔
      (∃ e ∈ queue, e.id = i) ∧ (fetch i).status ≠ ObjectStatus.objExists) ∧
    (checkObjectsExist fetch queue = .ok () ↔
      ∀ e ∈ queue, (fetch e.id).status = ObjectStatus.objExists) ∧
    objectBatchCalls queue ≤ 1 := by
  have key : invalidObjects fetch queue =
      (dedupeIds (queue.map (·.id))).filter
        (fun i => (fetch i).status != ObjectStatus.objExists) := by
    rw [invalidObjects]
    exact filter_fst_of_map_pair fetch (fun p => p.2.status != ObjectStatus.objExists) _
  have hmem : ∀ i : String, i ∈ invalidObjects fetch queue ↔
      (∃ e ∈ queue, e.id = i) ∧ (fetch i).status ≠ ObjectStatus.objExists := by
    intro i
    rw [key, List.mem_filter, dedupeIds_mem, List.mem_map]
    simp only [bne_iff_ne, ne_eq]
  refine ⟨?_, hmem, ?_, ?_⟩
  · rw [key]
    exact (dedupeIds_nodup _).filter _
  · constructor
    · intro hok e he
      by_contra hne
      have hbad : e.id ∈ invalidObjects fetch queue :=
        (hmem e.id).mpr ⟨⟨e, he, rfl⟩, hne⟩
      rw [checkObjectsExist] at hok
      rcases hinv : invalidObjects fetch queue with _ | ⟨bad, rest⟩
      · rw [hinv] at hbad
        exact List.not_mem_nil _ hbad
      · rw [hinv] at hok
        simp at hok
    · intro hall
      have hinv : invalidObjects fetch queue = [] := by
        rw [List.eq_nil_iff_forall_not_mem]
        intro i hi
        obtain ⟨⟨e, he, hid⟩, hstat⟩ := (hmem i).mp hi
        exact hstat (hid ▸ hall e he)
      rw [checkObjectsExist, hinv]
      rfl
  · rw [objectBatchCalls]
    split <;> simp

/-- Whether some registered input's value is an owned-object call argument for
this coin id, in the claim's words. -/
def specCoinExcluded (inputs : List TransactionInput) (coin : CoinStruct) : Prop :=
  ∃ input ∈ inputs, ∃ ref : SuiObjectRef,
    input.value = Value.arg (.objectArg (.immOrOwned ref)) ∧
      ref.objectId = coin.coinObjectId

theorem coinMatch_true_iff (v : Value) (cid : String) :
    (match v with
      | Value.arg (CallArg.objectArg (ObjectArg.immOrOwned ref)) => cid == ref.objectId
      | _ => false) = true ↔
      ∃ ref : SuiObjectRef,
        v = Value.arg (.objectArg (.immOrOwned ref)) ∧ ref.objectId = cid := by
  cases v with
  | undef =>
    show false = true ↔ _
    simp
  | str s =>
    show false = true ↔ _
    simp
  | num n =>
    show false = true ↔ _
    simp
  | arg a =>
    cases a with
    | pureArg bytes =>
      show false = true ↔ _
      simp
    | objectArg oa =>
      cases oa with
      | immOrOwned ref =>
        show (cid == ref.objectId) = true ↔ _
        rw [beq_iff_eq]
        constructor
        · intro h
          exact ⟨ref, rfl, h.symm⟩
        · rintro ⟨r, hval, hid⟩
          have hr : ref = r := by
            injection hval with h1
            injection h1 with h2
            injection h2 with h3
          rw [hr, hid]
      | shared oid ver m =>
        show false = true ↔ _
        simp

theorem coinUsedAsInput_iff (inputs : List TransactionInput) (coin : CoinStruct) :
    coinUsedAsInput inputs coin = true ↔ specCoinExcluded inputs coin := by
  rw [coinUsedAsInput, List.any_eq_true, specCoinExcluded]
  constructor
  · rintro ⟨input, hmem, hp⟩
    obtain ⟨ref, hval, hid⟩ := (coinMatch_true_iff input.value coin.coinObjectId).mp hp
    exact ⟨input, hmem, ref, hval, hid⟩
  · rintro ⟨input, hmem, ref, hval, hid⟩
    exact ⟨input, hmem,
      (coinMatch_true_iff input.value coin.coinObjectId).mpr ⟨ref, hval, hid⟩⟩

/-- C4: a preset `gasConfig.payment` is kept with no coin query; otherwise a
single coin query is made and a reference belongs to the selected payment set
exactly when it comes from one of the sender's coins that no owned-object
input consumes; selection fails with the resource error exactly when every
fetched coin is excluded. -/
theorem C4_gas_payment_selection (coins : List CoinStruct)
    (inputs : List TransactionInput) (p : List SuiObjectRef) :
    selectGasPayment (some p) coins inputs = (.ok p, 0) ∧
    (selectGasPayment none coins inputs).2 = 1 ∧
    (∀ ref : SuiObjectRef,
      (∃ pay, (selectGasPayment none coins inputs).1 = .ok pay ∧ ref ∈ pay) ↔
        ∃ coin ∈ coins, ¬specCoinExcluded inputs coin ∧
          ref = ⟨coin.coinObjectId, coin.version, coin.digest⟩) ∧
    ((selectGasPayment none coins inputs).1 =
        .error "No valid gas coins found for the transaction." ↔
      ∀ coin ∈ coins, specCoinExcluded inputs coin) := by
  have hsel : ∀ ref : SuiObjectRef,
      ref ∈ gasSelected coins inputs ↔
        ∃ coin ∈ coins, ¬specCoinExcluded inputs coin ∧
          ref = ⟨coin.coinObjectId, coin.version, coin.digest⟩ := by
    intro ref
    rw [gasSelected, List.mem_map]
    constructor
    · rintro ⟨coin, hcmem, hrefeq⟩
      rw [List.mem_filter] at hcmem
      refine ⟨coin, hcmem.1, ?_, hrefeq.symm⟩
      intro hexcl
      have hused := (coinUsedAsInput_iff inputs coin).mpr hexcl
      rw [hused] at hcmem
      exact absurd hcmem.2 (by simp)
    · rintro ⟨coin, hcmem, hnexcl, hrefeq⟩
      refine ⟨coin, List.mem_filter.mpr ⟨hcmem, ?_⟩, hrefeq.symm⟩
      rcases hused : coinUsedAsInput inputs coin
      · rfl
      · exact absurd ((coinUsedAsInput_iff inputs coin).mp hused) hnexcl
  have hnone : selectGasPayment none coins inputs =
      if (gasSelected coins inputs).isEmpty then
        (.error "No valid gas coins found for the transaction.", 1)
      else (.ok (gasSelected coins inputs), 1) := rfl
  refine ⟨rfl, ?_, ?_, ?_⟩
  · rw [hnone]
    split <;> rfl
  · intro ref
    rw [hnone]
    rcases hempty : (gasSelected coins inputs).isEmpty
    · rw [if_neg Bool.false_ne_true]
      rw [← hsel ref]
      constructor
      · rintro ⟨pay, hok, hmem⟩
        have hpe : gasSelected coins inputs = pay := Except.ok.inj hok
        rw [hpe]
        exact hmem
      · intro hmem
        exact ⟨_, rfl, hmem⟩
    · rw [if_pos rfl]
      rw [List.isEmpty_iff] at hempty
      constructor
      · rintro ⟨pay, hok, _⟩
        exact Except.noConfusion hok
      · intro hmem
        rw [← hsel ref, hempty] at hmem
        exact absurd hmem (List.not_mem_nil ref)
  · rw [hnone]
    rcases hempty : (gasSelected coins inputs).isEmpty
    · rw [if_neg Bool.false_ne_true]
      constructor
      · intro hcontra
        exact Except.noConfusion hcontra
      · intro hall
        exfalso
        rw [List.isEmpty_eq_false_iff_exists_mem] at hempty
        obtain ⟨ref, href⟩ := hempty
        obtain ⟨coin, hcmem, hnexcl, _⟩ := (hsel ref).mp href
        exact hnexcl (hall coin hcmem)
    · rw [if_pos rfl]
      rw [List.isEmpty_iff] at hempty
      constructor
      · intro _ coin hcmem
        by_contra hnexcl
        have hin : (⟨coin.coinObjectId, coin.version, coin.digest⟩ : SuiObjectRef) ∈
            gasSelected coins inputs :=
          (hsel _).mpr ⟨coin, hcmem, hnexcl, rfl⟩
        rw [hempty] at hin
        exact List.not_mem_nil _ hin
      · intro _
        rfl

/-- The mutability demanded by the normalized parameter type attached to a
queued resolution (clause (b) of the `mutable` computation at lines 488–491). -/
def specDemandsMutable (entry : ObjectToResolve) : Bool :=
  match entry.normalizedType with
  | some t => (extractMutableReference t).isSome
  | none => false

theorem resolveObjectEntry_shared (fetch : String → SuiObjectResponse)
    (oid : String) (v : Nat) (hv : v ≠ 0)
    (hfetch : (fetch oid).initialSharedVersion.getD 0 = v)
    (entry : ObjectToResolve) (hid : entry.id = oid) (value : Value) :
    resolveObjectEntry fetch entry value =
      Value.arg (.objectArg (.shared oid v
        (isMutableSharedObjectInput value || specDemandsMutable entry))) := by
  rw [resolveObjectEntry, hid, hfetch]
  rw [if_pos (by simpa [bne_iff_ne] using hv)]
  rfl

theorem resolveObjects_shared_loop (fetch : String → SuiObjectResponse)
    (oid : String) (v : Nat) (hv : v ≠ 0)
    (hfetch : (fetch oid).initialSharedVersion.getD 0 = v) :
    ∀ (queue : List ObjectToResolve) (values : List Value) (k : Nat),
      k < values.length →
      (∀ e ∈ queue, e.inputIndex = k ∧ e.id = oid) →
      (resolveObjects fetch queue values).getD k .undef =
        if queue.isEmpty then values.getD k .undef
        else Value.arg (.objectArg (.shared oid v
          (isMutableSharedObjectInput (values.getD k .undef) ||
            queue.any specDemandsMutable))) := by
  intro queue
  induction queue with
  | nil =>
    intro values k _ _
    rfl
  | cons e q ih =>
    intro values k hk hq
    obtain ⟨hidx, hid⟩ := hq e (List.mem_cons_self _ _)
    have hstep : resolveObjects fetch (e :: q) values =
        resolveObjects fetch q
          (values.set k (resolveObjectEntry fetch e (values.getD k .undef))) := by
      rw [resolveObjects, List.foldl_cons, hidx, ← resolveObjects]
    have hentry := resolveObjectEntry_shared fetch oid v hv hfetch e hid
      (values.getD k .undef)
    have hgetset : (values.set k (resolveObjectEntry fetch e (values.getD k .undef))).getD
        k .undef = resolveObjectEntry fetch e (values.getD k .undef) := by
      rw [List.getD_eq_getElem?_getD, List.getElem?_set_self, Option.getD_some]
      exact hk
    have hlen : k < (values.set k
        (resolveObjectEntry fetch e (values.getD k .undef))).length := by
      rw [List.length_set]
      exact hk
    have hq' : ∀ x ∈ q, x.inputIndex = k ∧ x.id = oid := by
      intro x hx
      exact hq x (List.mem_cons_of_mem _ hx)
    rw [hstep, ih _ k hlen hq', hgetset, hentry]
    rcases q with _ | ⟨e', q'⟩
    · simp
    · simp only [List.isEmpty_cons, List.any_cons, if_neg Bool.false_ne_true]
      rw [isMutableSharedObjectInput]
      rw [Bool.or_assoc]

/-- C2: for a batch of queued resolutions that all target the same registered
input and the same shared object, the final resolved value is a
`SharedObjectRef` whose `mutable` flag is the logical OR of the mutability
demanded by each queued reference; the outcome is the same for any processing
order of the queue; and an input already marked mutable is never downgraded by
processing a further reference to the shared object. -/
theorem C2_shared_mutability_or (fetch : String → SuiObjectResponse)
    (values : List Value) (queue : List ObjectToResolve)
    (k : Nat) (oid : String) (v : Nat)
    (hk : k < values.length) (hv : v ≠ 0)
    (hfetch : (fetch oid).initialSharedVersion.getD 0 = v)
    (hq : ∀ e ∈ queue, e.inputIndex = k ∧ e.id = oid)
    (hne : queue ≠ [])
    (hinit : isMutableSharedObjectInput (values.getD k .undef) = false) :
    (resolveObjects fetch queue values).getD k .undef =
      Value.arg (.objectArg (.shared oid v (queue.any specDemandsMutable))) ∧
    (∀ queue' : List ObjectToResolve, queue'.Perm queue →
      (resolveObjects fetch queue' values).getD k .undef =
        (resolveObjects fetch queue values).getD k .undef) ∧
    (∀ (value : Value) (entry : ObjectToResolve),
      isMutableSharedObjectInput value = true → entry.id = oid →
      isMutableSharedObjectInput (resolveObjectEntry fetch entry value) = true) := by
  have hmain : ∀ (queue₁ : List ObjectToResolve),
      (∀ e ∈ queue₁, e.inputIndex = k ∧ e.id = oid) → queue₁ ≠ [] →
      (resolveObjects fetch queue₁ values).getD k .undef =
        Value.arg (.objectArg (.shared oid v (queue₁.any specDemandsMutable))) := by
    intro queue₁ hq₁ hne₁
    rw [resolveObjects_shared_loop fetch oid v hv hfetch queue₁ values k hk hq₁]
    rw [if_neg (by simpa [List.isEmpty_iff] using hne₁), hinit, Bool.false_or]
  refine ⟨hmain queue hq hne, ?_, ?_⟩
  · intro queue' hperm
    have hq' : ∀ e ∈ queue', e.inputIndex = k ∧ e.id = oid := by
      intro e he
      exact hq e (hperm.mem_iff.mp he)
    have hne' : queue' ≠ [] := by
      intro hnil
      rw [hnil] at hperm
      exact hne (List.Perm.nil_eq hperm).symm
    rw [hmain queue' hq' hne', hmain queue hq hne,
      any_of_perm specDemandsMutable hperm]
  · intro value entry hmut hid
    rw [resolveObjectEntry_shared fetch oid v hv hfetch entry hid value, hmut]
    rfl

/-- C2 witness: two queued references to the same shared object, the first
demanding read-only access and the second a mutable reference, resolve the
input to a `SharedObjectRef` with `mutable = true`. -/
theorem C2_witness :
    (resolveObjects
        (fun _ => ⟨ObjectStatus.objExists, some 3, ⟨"0xobj", 1, "dig"⟩⟩)
        [⟨"0xshared", 0, none⟩,
          ⟨"0xshared", 0, some (.mutableReference (.struct "0x2" "m" "T"))⟩]
        [Value.str "0xshared"]).getD 0 .undef =
      Value.arg (.objectArg (.shared "0xshared" 3 true)) :=
  (C2_shared_mutability_or
      (fun _ => ⟨ObjectStatus.objExists, some 3, ⟨"0xobj", 1, "dig"⟩⟩)
      [Value.str "0xshared"]
      [⟨"0xshared", 0, none⟩,
        ⟨"0xshared", 0, some (.mutableReference (.struct "0x2" "m" "T"))⟩]
      0 "0xshared" 3 (by decide) (by decide) rfl (by decide) (by decide) rfl).1

/-- C8: an unresolved input used where an object encoding is required — a
declared well-known object encoding, or an entry-function parameter of
struct/object/type-parameter kind — whose raw value is not an object-id string
throws a format error, and an entry-function parameter type that is neither
pure-serializable nor of struct/object/type-parameter kind throws a format
error. -/
theorem C8_object_format_errors (inputs : List TransactionInput) (index : Nat)
    (input : TransactionInput) (param : SuiMoveNormalizedType) :
    (inputs[index]? = some input → isBuilderCallArg input.value = false →
      (∀ s : String, input.value ≠ .str s) →
      encodeInput inputs .objectKind index = .error "Unexpected input format.") ∧
    (getPureSerializationType param input.value = none →
      ((extractStructTag param).isSome = true ∨ isTypeParameterKind param = true) →
      (∀ s : String, input.value ≠ .str s) →
      resolveMoveCallParam param input =
        .error "Expect the argument to be an object id string") ∧
    (getPureSerializationType param input.value = none →
      extractStructTag param = none → isTypeParameterKind param = false →
      resolveMoveCallParam param input = .error "Unknown call arg type") := by
  refine ⟨?_, ?_, ?_⟩
  · intro h hnb hstr
    rcases hval : input.value with _ | s | n | a
    · simp [encodeInput, h, hval, isBuilderCallArg]
    · exact absurd hval (hstr s)
    · simp [encodeInput, h, hval, isBuilderCallArg]
    · rw [hval] at hnb
      exact absurd hnb (by simp [isBuilderCallArg])
  · intro hpure hobj hstr
    have hb : ((extractStructTag param).isSome || isTypeParameterKind param) = true := by
      rcases hobj with h | h <;> simp [h]
    rcases hval : input.value with _ | s | n | a
    · rw [hval] at hpure
      simp [resolveMoveCallParam, inputMatchesBuilderCallArg, hval, hpure, hb]
    · exact absurd hval (hstr s)
    · rw [hval] at hpure
      simp [resolveMoveCallParam, inputMatchesBuilderCallArg, hval, hpure, hb]
    · rw [hval] at hpure
      simp [resolveMoveCallParam, inputMatchesBuilderCallArg, hval, hpure, hb]
  · intro hpure hstruct htp
    rcases hval : input.value with _ | s | n | a <;>
      · rw [hval] at hpure
        simp [resolveMoveCallParam, inputMatchesBuilderCallArg, hval, hpure,
          hstruct, htp]

/-- C8 witness: a non-string raw value under a declared object encoding, a
non-string raw value against a struct-typed parameter, and a
reference-to-primitive parameter each throw the matching format error. -/
theorem C8_witness :
    encodeInput [⟨0, InputType.object, Value.num 1⟩] .objectKind 0 =
      .error "Unexpected input format." ∧
    resolveMoveCallParam (.struct "0x2" "m" "T") ⟨0, InputType.object, Value.num 1⟩ =
      .error "Expect the argument to be an object id string" ∧
    resolveMoveCallParam (.reference .u64) ⟨0, InputType.pureType, Value.num 1⟩ =
      .error "Unknown call arg type" :=
  ⟨(C8_object_format_errors [⟨0, InputType.object, Value.num 1⟩] 0
      ⟨0, InputType.object, Value.num 1⟩ (.struct "0x2" "m" "T")).1
      rfl rfl (fun _ h => Value.noConfusion h),
    (C8_object_format_errors [⟨0, InputType.object, Value.num 1⟩] 0
      ⟨0, InputType.object, Value.num 1⟩ (.struct "0x2" "m" "T")).2.1
      rfl (Or.inl rfl) (fun _ h => Value.noConfusion h),
    (C8_object_format_errors [⟨0, InputType.pureType, Value.num 1⟩] 0
      ⟨0, InputType.pureType, Value.num 1⟩ (.reference .u64)).2.2
      rfl rfl rfl⟩

/-- The invariant maintained by the `nestedResults` cache: every cached entry
at key `i` is the nested-result handle for this command index and `i`. -/
def CacheWF (index : Nat) (cache : List (Nat × CommandArgument)) : Prop :=
  ∀ p ∈ cache, p.2 = CommandArgument.nestedResult index p.1

theorem protoKey_parseInt_none (s : String)
    (h : objectPrototypeKeys.contains s = true) : jsParseInt s = none := by
  have hmem : s ∈ objectPrototypeKeys := by
    simpa using h
  rw [objectPrototypeKeys] at hmem
  simp only [List.mem_cons, List.not_mem_nil, or_false] at hmem
  rcases hmem with rfl | rfl | rfl | rfl | rfl | rfl | rfl | rfl | rfl | rfl |
    rfl | rfl <;> decide

theorem nestedResultFor_fst (index i : Nat) (cache : List (Nat × CommandArgument))
    (hwf : CacheWF index cache) :
    (nestedResultFor index cache i).1 = CommandArgument.nestedResult index i := by
  rw [nestedResultFor]
  rcases hcl : cache.lookup i with _ | c
  · rfl
  · exact hwf (i, c) (lookup_mem cache i c hcl)

/-- C9: on a well-formed cache, accessing the proxy with a key that parses to
the non-negative index `i` yields the cached nested-result handle
`NestedResult{index, i}`; an immediately repeated access returns the same
handle and leaves the cache unchanged; a different index yields a different
handle; and the handle's own `kind`/`index` properties present it as
`Result{index}`. -/
theorem C9_nested_result_stability (index i j : Nat) (s : String)
    (cache : List (Nat × CommandArgument)) (hwf : CacheWF index cache)
    (hk : s ≠ "kind") (hx : s ≠ "index")
    (hp : jsParseInt s = some (i : Int)) (hij : j ≠ i) :
    createTransactionResultGet index cache (.strKey s) =
      (.nested (nestedResultFor index cache i).1, (nestedResultFor index cache i).2) ∧
    (nestedResultFor index cache i).1 = CommandArgument.nestedResult index i ∧
    nestedResultFor index (nestedResultFor index cache i).2 i =
      ((nestedResultFor index cache i).1, (nestedResultFor index cache i).2) ∧
    (nestedResultFor index cache j).1 ≠ (nestedResultFor index cache i).1 ∧
    createTransactionResultGet index cache (.strKey "kind") =
      (.kindField "Result", cache) ∧
    createTransactionResultGet index cache (.strKey "index") =
      (.indexField index, cache) := by
  refine ⟨?_, nestedResultFor_fst index i cache hwf, ?_, ?_, rfl, rfl⟩
  · have hpr : objectPrototypeKeys.contains s = false := by
      rcases hc : objectPrototypeKeys.contains s
      · rfl
      · exfalso
        rw [protoKey_parseInt_none s hc] at hp
        exact Option.noConfusion hp
    rw [createTransactionResultGet]
    rw [if_neg (by simpa using hk), if_neg (by simpa using hx), hpr,
      if_neg Bool.false_ne_true, hp]
    show nestedAccess index cache (i : Int) = _
    rw [nestedAccess, if_neg (not_lt.mpr (Int.natCast_nonneg i)), Int.toNat_natCast]
  · rcases hcl : cache.lookup i with _ | c
    · simp only [nestedResultFor, hcl]
      simp [List.lookup]
    · simp only [nestedResultFor, hcl]
  · rw [nestedResultFor_fst index j cache hwf, nestedResultFor_fst index i cache hwf]
    intro hcontra
    exact hij (by injection hcontra)

/-- C9 witness: accessing index 2 of a fresh result handle twice returns the
identical nested handle, index 3 returns a different one, and the base
properties read back as `Result{0}`. -/
theorem C9_witness :
    createTransactionResultGet 0 [] (.strKey "2") =
      (.nested (nestedResultFor 0 [] 2).1, (nestedResultFor 0 [] 2).2) ∧
    (nestedResultFor 0 [] 2).1 = CommandArgument.nestedResult 0 2 ∧
    nestedResultFor 0 (nestedResultFor 0 [] 2).2 2 =
      ((nestedResultFor 0 [] 2).1, (nestedResultFor 0 [] 2).2) ∧
    (nestedResultFor 0 [] 3).1 ≠ (nestedResultFor 0 [] 2).1 ∧
    createTransactionResultGet 0 [] (.strKey "kind") = (.kindField "Result", []) ∧
    createTransactionResultGet 0 [] (.strKey "index") = (.indexField 0, []) :=
  C9_nested_result_stability 0 2 3 "2" []
    (fun p hp => absurd hp (List.not_mem_nil p))
    (by decide) (by decide) (by decide) (by decide)

/-- C10 counterexample: the keys `"kind"` and `"toString"` do not parse as
numbers, yet accessing the result proxy with them returns the base result's
own `kind` field (`'Result'`) and the `toString` member inherited from
`Object.prototype` respectively — not `undefined`. -/
theorem C10_counterexample :
    jsParseInt "kind" = none ∧
    createTransactionResultGet 0 [] (.strKey "kind") = (.kindField "Result", []) ∧
    ProxyGetResult.kindField "Result" ≠ ProxyGetResult.undef ∧
    jsParseInt "toString" = none ∧
    createTransactionResultGet 0 [] (.strKey "toString") =
      (.inherited "toString", []) ∧
    ProxyGetResult.inherited "toString" ≠ ProxyGetResult.undef := by
  refine ⟨by decide, rfl, by decide, by decide, rfl, by decide⟩

/-- C10 (amended): accessing a result handle with a negative index, a key that
does not parse as a number and is not `in` the base result — neither one of
its own properties (`kind`, `index`) nor a key inherited from
`Object.prototype` — or a symbol key other than the iterator yields
`undefined` rather than an error, while any attempt to set a property always
throws. -/
theorem C10_amended_access (index : Nat) (cache : List (Nat × CommandArgument)) :
    (∀ s : String, s ≠ "kind" → s ≠ "index" →
      objectPrototypeKeys.contains s = false →
      (jsParseInt s = none ∨ ∃ n : Int, jsParseInt s = some n ∧ n < 0) →
      createTransactionResultGet index cache (.strKey s) = (.undef, cache)) ∧
    (∀ s : String,
      createTransactionResultGet index cache (.symOtherKey s) = (.undef, cache)) ∧
    (∀ (key : PropertyKey) (v : Value), createTransactionResultSet key v =
      .error "The transaction result is a proxy, and does not support setting properties directly") := by
  refine ⟨?_, fun _ => rfl, fun _ _ => rfl⟩
  intro s h1 h2 hpr h3
  rw [createTransactionResultGet]
  rw [if_neg (by simpa using h1), if_neg (by simpa using h2), hpr,
    if_neg Bool.false_ne_true]
  rcases h3 with h3 | ⟨n, hn, hneg⟩
  · rw [h3]
  · rw [hn]
    show nestedAccess index cache n = _
    rw [nestedAccess, if_pos hneg]

/-- C10 witness: an unparsable non-property key, a negative index, another
symbol, and a property write, at concrete inputs. -/
theorem C10_witness :
    createTransactionResultGet 0 [] (.strKey "foo") = (.undef, []) ∧
    createTransactionResultGet 0 [] (.strKey "-1") = (.undef, []) ∧
    createTransactionResultGet 0 [] (.symOtherKey "x") = (.undef, []) ∧
    createTransactionResultSet (.strKey "0") (Value.num 1) =
      .error "The transaction result is a proxy, and does not support setting properties directly" :=
  ⟨(C10_amended_access 0 []).1 "foo" (by decide) (by decide) (by decide)
      (Or.inl (by decide)),
    (C10_amended_access 0 []).1 "-1" (by decide) (by decide) (by decide)
      (Or.inr ⟨-1, by decide, by decide⟩),
    (C10_amended_access 0 []).2.1 "x",
    (C10_amended_access 0 []).2.2 (.strKey "0") (Value.num 1)⟩

/-- C1 (code bug): an input that already holds a resolved call argument is not
skipped by the signature-resolution pass — the check at line 412 tests the
input wrapper instead of its value — so a fully resolved object argument in a
move call that still contains one unresolved input is re-processed: it aborts
resolution with a format error (object-typed parameter), or is re-encoded to
different bytes (pure-typed parameter), instead of being left unchanged. -/
theorem C1_resolved_input_not_skipped :
    isBuilderCallArg (Value.arg (Inputs.ObjectRefArg ⟨"0x123", 1, "dig1"⟩)) = true ∧
    inputMatchesBuilderCallArg
      ⟨0, InputType.object, Value.arg (Inputs.ObjectRefArg ⟨"0x123", 1, "dig1"⟩)⟩ = false ∧
    needsResolution
      [⟨0, InputType.object, Value.arg (Inputs.ObjectRefArg ⟨"0x123", 1, "dig1"⟩)⟩,
        ⟨1, InputType.pureType, Value.num 42⟩]
      [.input 0, .input 1] = true ∧
    resolveMoveCallParam (.struct "0x2" "example" "Obj")
      ⟨0, InputType.object, Value.arg (Inputs.ObjectRefArg ⟨"0x123", 1, "dig1"⟩)⟩ =
      .error "Expect the argument to be an object id string" ∧
    resolveMoveCallParam SuiMoveNormalizedType.u64
      ⟨1, InputType.pureType, Value.arg (Inputs.PureArg "u64" (Value.num 42))⟩ =
      .ok (.setValue (Value.arg (Inputs.PureArg "u64"
        (Value.arg (Inputs.PureArg "u64" (Value.num 42)))))) ∧
    Value.arg (Inputs.PureArg "u64" (Value.arg (Inputs.PureArg "u64" (Value.num 42)))) ≠
      Value.arg (Inputs.PureArg "u64" (Value.num 42)) :=
  ⟨rfl, rfl, rfl, rfl, rfl, by decide⟩

end SuiBuilder
